import Mathlib

/-!
Verification development for the `claude-code-sdk-go` repository.

The Go source is shallowly embedded: each Lean definition below translates one
Go function or type from the repository (mainly
`internal/transport/subprocess.go`, `internal/parser` and `internal/types`),
with Go's dynamically typed JSON values (`any` produced by
`encoding/json.Unmarshal` into `map[string]any`) modelled by the inductive
type `GoVal`.  Go `float64` values are modelled as rationals (`Rat`), Go `int`
and `int64` as `Int`; stateful / IO-performing code is modelled by explicit
inputs describing the observable outcomes of the external effects (the decoded
JSON of each stdout line, pipe-creation and process-start success, the exit
code, the stderr lines).
-/

set_option autoImplicit false

namespace ClaudeSDK

/-- Model of a Go `any` value as produced by `encoding/json.Unmarshal` and as
passed around in `map[string]any`: strings, numbers (`int`, `int64`, `float64`
are the three cases Go type switches in this code distinguish), booleans,
`nil`, `[]any` slices and `map[string]any` maps (modelled as association
lists; JSON objects have distinct keys, and lookup takes the first match just
as a Go map lookup is keyed). -/
inductive GoVal where
  | str : String → GoVal
  | int : Int → GoVal
  | int64 : Int → GoVal
  | float : Rat → GoVal
  | bool : Bool → GoVal
  | null : GoVal
  | arr : List GoVal → GoVal
  | obj : List (String × GoVal) → GoVal

/-- A Go `map[string]any`, as an association list. -/
abbrev GoMap := List (String × GoVal)

/-- Go map indexing `data[key]`: `some v` when the key is present (the `v, ok`
form with `ok = true`), `none` when absent. -/
def goGet : GoMap → String → Option GoVal
  | [], _ => none
  | (k, v) :: rest, key => if k = key then some v else goGet rest key

/-- `internal/types.ContentBlock`: the closed family of content block variants
(`TextBlock`, `ToolUseBlock`, `ToolResultBlock` from `internal/types`). -/
inductive ContentBlock where
  | text (Text : String)
  | toolUse (ID : String) (Name : String) (Input : GoMap)
  | toolResult (ToolUseID : String) (Content : Option GoVal) (IsError : Option Bool)

/-- `internal/types.ResultMessage`. -/
structure ResultMessage where
  Subtype : String
  DurationMs : Int
  DurationAPIMs : Int
  IsError : Bool
  NumTurns : Int
  SessionID : String
  TotalCostUSD : Option Rat
  Usage : Option GoMap
  Result : Option String

/-- `internal/types.Message`: the closed family of message variants
(`UserMessage`, `AssistantMessage`, `SystemMessage`, `ResultMessage`). -/
inductive Message where
  | user (Content : String)
  | assistant (Content : List ContentBlock)
  | system (Subtype : String) (Data : GoMap)
  | result (r : ResultMessage)

/-- `internal/errors.MessageParseError`: carries the human-readable message
and the raw data.  The `cause` is always `nil` at every construction site in
the parser, so `Error()` returns exactly `message`. -/
structure ParseError where
  message : String
  raw : GoVal

/-- Go `int(f)` conversion of a `float64` to `int`: truncation toward zero.
`Int.tdiv` is T-division, which rounds toward zero, and `q.den > 0`. -/
def goTrunc (q : Rat) : Int := q.num.tdiv (q.den : Int)

/-- `internal/parser.getIntField`: returns the field as an `int` when it is a
Go `int`, `int64` or `float64` (truncated), `none` (Go `0, false`) when the
field is absent or of any other dynamic type. -/
def getIntField (data : GoMap) (field : String) : Option Int :=
  match goGet data field with
  | none => none
  | some v =>
    match v with
    | .int n => some n
    | .int64 n => some n
    | .float q => some (goTrunc q)
    | _ => none

/-- `internal/parser.parseUserMessage`, inner loop over the nested content
array: return the `content` string of the first `tool_result` block whose
`content` field is a string; fall back to the fixed placeholder. -/
def extractToolResultContent : List GoVal → String
  | [] => "[Tool result message]"
  | blockData :: rest =>
    match blockData with
    | .obj blockMap =>
      match goGet blockMap "type" with
      | some (.str blockType) =>
        if blockType = "tool_result" then
          match goGet blockMap "content" with
          | some (.str toolContent) => toolContent
          | _ => extractToolResultContent rest
        else extractToolResultContent rest
      | _ => extractToolResultContent rest
    | _ => extractToolResultContent rest

/-- `internal/parser.parseUserMessage`, the final top-level-`content` attempt
shared by both fall-through paths. -/
def parseUserTopLevel (data : GoMap) : Except ParseError Message :=
  match goGet data "content" with
  | some (.str content) => .ok (.user content)
  | _ => .error ⟨"Missing required field 'content' in user message", .obj data⟩

/-- `internal/parser.parseUserMessage`: nested `message.content` string, then
nested `message.content` array (tool-result extraction), then top-level
`content` string. -/
def parseUserMessage (data : GoMap) : Except ParseError Message :=
  match goGet data "message" with
  | some (.obj message) =>
    match goGet message "content" with
    | some (.str content) => .ok (.user content)
    | some (.arr contentArray) => .ok (.user (extractToolResultContent contentArray))
    | _ => parseUserTopLevel data
  | _ => parseUserTopLevel data

/-- `internal/parser.parseContentBlock`: dispatch on the block `type`
discriminant. -/
def parseContentBlock (blockData : GoMap) : Except ParseError ContentBlock :=
  match goGet blockData "type" with
  | some (.str blockType) =>
    if blockType = "text" then
      match goGet blockData "text" with
      | some (.str text) => .ok (.text text)
      | _ => .error ⟨"Text block missing 'text' field", .obj blockData⟩
    else if blockType = "tool_use" then
      match goGet blockData "id" with
      | some (.str id) =>
        match goGet blockData "name" with
        | some (.str name) =>
          match goGet blockData "input" with
          | some (.obj input) => .ok (.toolUse id name input)
          | _ => .error ⟨"Tool use block missing 'input' field", .obj blockData⟩
        | _ => .error ⟨"Tool use block missing 'name' field", .obj blockData⟩
      | _ => .error ⟨"Tool use block missing 'id' field", .obj blockData⟩
    else if blockType = "tool_result" then
      match goGet blockData "tool_use_id" with
      | some (.str toolUseID) =>
        .ok (.toolResult toolUseID (goGet blockData "content")
          (match goGet blockData "is_error" with
           | some (.bool b) => some b
           | _ => none))
      | _ => .error ⟨"Tool result block missing 'tool_use_id' field", .obj blockData⟩
    else
      .error ⟨"Unknown content block type: " ++ blockType, .obj blockData⟩
  | _ => .error ⟨"Content block missing 'type' field", .obj blockData⟩

/-- `internal/parser.parseAssistantMessage`, content selection: the nested
`message.content` array is tried first, then the top-level `content` array
(`contentData` stays `nil` when the nested lookup does not yield an array). -/
def assistantContentData (data : GoMap) : Option (List GoVal) :=
  match goGet data "message" with
  | some (.obj message) =>
    match goGet message "content" with
    | some (.arr content) => some content
    | _ =>
      match goGet data "content" with
      | some (.arr content) => some content
      | _ => none
  | _ =>
    match goGet data "content" with
    | some (.arr content) => some content
    | _ => none

/-- `internal/parser.parseAssistantMessage`, the loop over `contentData`:
each element must be a `map[string]any` and parse as a content block; the
first failure aborts with its error; `data` is the whole message object (used
in the invalid-format error). -/
def parseBlocks (data : GoMap) : List GoVal → Except ParseError (List ContentBlock)
  | [] => .ok []
  | blockData :: rest =>
    match blockData with
    | .obj blockMap =>
      match parseContentBlock blockMap with
      | .ok block =>
        match parseBlocks data rest with
        | .ok blocks => .ok (block :: blocks)
        | .error e => .error e
      | .error e => .error e
    | _ => .error ⟨"Invalid content block format", .obj data⟩

/-- `internal/parser.parseAssistantMessage`. -/
def parseAssistantMessage (data : GoMap) : Except ParseError Message :=
  match assistantContentData data with
  | some contentData =>
    match parseBlocks data contentData with
    | .ok contentBlocks => .ok (.assistant contentBlocks)
    | .error e => .error e
  | none => .error ⟨"Missing required field 'content' in assistant message", .obj data⟩

/-- `internal/parser.parseSystemMessage`: requires a `subtype` string and
retains the whole object as the metadata mapping. -/
def parseSystemMessage (data : GoMap) : Except ParseError Message :=
  match goGet data "subtype" with
  | some (.str subtype) => .ok (.system subtype data)
  | _ => .error ⟨"Missing required field 'subtype' in system message", .obj data⟩

/-- `internal/parser.parseResultMessage`: the required fields in source
order, then the three optional fields, each attached only when present and of
the right dynamic type. -/
def parseResultMessage (data : GoMap) : Except ParseError ResultMessage :=
  match goGet data "subtype" with
  | some (.str subtype) =>
    match getIntField data "duration_ms" with
    | some durationMs =>
      match getIntField data "duration_api_ms" with
      | some durationAPIMs =>
        match goGet data "is_error" with
        | some (.bool isError) =>
          match getIntField data "num_turns" with
          | some numTurns =>
            match goGet data "session_id" with
            | some (.str sessionID) =>
              .ok { Subtype := subtype
                    DurationMs := durationMs
                    DurationAPIMs := durationAPIMs
                    IsError := isError
                    NumTurns := numTurns
                    SessionID := sessionID
                    TotalCostUSD :=
                      match goGet data "total_cost_usd" with
                      | some (.float cost) => some cost
                      | _ => none
                    Usage :=
                      match goGet data "usage" with
                      | some (.obj usageMap) => some usageMap
                      | _ => none
                    Result :=
                      match goGet data "result" with
                      | some (.str resultStr) => some resultStr
                      | _ => none }
            | _ => .error ⟨"Missing required field 'session_id' in result message", .obj data⟩
          | _ => .error ⟨"Missing required field 'num_turns' in result message", .obj data⟩
        | _ => .error ⟨"Missing required field 'is_error' in result message", .obj data⟩
      | _ => .error ⟨"Missing required field 'duration_api_ms' in result message", .obj data⟩
    | _ => .error ⟨"Missing required field 'duration_ms' in result message", .obj data⟩
  | _ => .error ⟨"Missing required field 'subtype' in result message", .obj data⟩

/-- `internal/parser.ParseMessage`: the argument is `none` for a `nil` map
(which Go's `json.Unmarshal` leaves behind for a JSON `null`); dispatch on the
`type` string. -/
def ParseMessage (data : Option GoMap) : Except ParseError Message :=
  match data with
  | none => .error ⟨"Invalid message data type (expected map, got nil)", .null⟩
  | some data =>
    match goGet data "type" with
    | some (.str messageType) =>
      if messageType = "user" then parseUserMessage data
      else if messageType = "assistant" then parseAssistantMessage data
      else if messageType = "system" then parseSystemMessage data
      else if messageType = "result" then
        match parseResultMessage data with
        | .ok r => .ok (.result r)
        | .error e => .error e
      else .error ⟨"Unknown message type: " ++ messageType, .obj data⟩
    | _ => .error ⟨"Message missing 'type' field", .obj data⟩

/-- Whether an `Except` carries a success (`err == nil` on the Go side). -/
def exceptIsOk {ε α : Type} : Except ε α → Bool
  | .ok _ => true
  | .error _ => false

/-! ## The subprocess transport (`internal/transport/subprocess.go`) -/

/-- `maxBufferSize`: the 1 MiB line bound checked inside the receive loop. -/
def maxBufferSize : Nat := 1024 * 1024

/-- `maxStderrSize`: the 10 MiB stderr accumulation cap. -/
def maxStderrSize : Nat := 10 * 1024 * 1024

/-- `bufio.MaxScanTokenSize`: the token-size bound of a `bufio.Scanner` that
was not given a custom buffer via `Scanner.Buffer`.  `ReceiveMessages` builds
its scanner as `bufio.NewScanner(t.stdout)` with no `Buffer` call, so a stdout
line longer than this makes `Scan` return `false` and `Err()` return
`bufio.ErrTooLong` (message `bufio.Scanner: token too long`). -/
def maxScanTokenSize : Nat := 64 * 1024

/-- Go `unicode.IsSpace` restricted to the characters that can actually occur
here (ASCII whitespace plus the two Latin-1 space characters); models the
cutset of `strings.TrimSpace`. -/
def goIsSpace (c : Char) : Bool :=
  c = ' ' || c = '\t' || c = '\n' || c = '\x0b' || c = '\x0c' || c = '\r' ||
  c = '\u0085' || c = '\u00A0'

/-- `strings.TrimSpace`: drop leading and trailing whitespace. -/
def trimSpace (s : String) : String :=
  String.mk (((s.data.dropWhile goIsSpace).reverse.dropWhile goIsSpace).reverse)

/-- UTF-8 byte length of a character list; `goLen` below is Go's `len()` on
the string holding these characters. -/
def utf8Len (l : List Char) : Nat := (l.map Char.utf8Size).sum

/-- Go `len(s)` for a string: its UTF-8 byte count. -/
def goLen (s : String) : Nat := utf8Len s.data

/-- Outcome of `json.Unmarshal([]byte(line), &data)` with
`data : map[string]any`: failure (the line is not a valid JSON object),
success leaving a `nil` map (the line is JSON `null`), or success with a
decoded object.  The transport treats the unmarshaller as an external
collaborator, so the stream model below is parametrised by the decode
function. -/
inductive DecodeResult where
  | fail
  | ok (data : Option GoMap)

/-- The `data["type"]` index used by the receive loop's `control_response`
check (indexing a `nil` map yields `nil`). -/
def messageTypeOf (dataOpt : Option GoMap) : Option GoVal :=
  match dataOpt with
  | none => none
  | some data => goGet data "type"

/-- Run `ParseMessage` and turn a parse error into a diagnostic User message
(`"Parse error: %v"`, where `%v` of a `MessageParseError` with `nil` cause is
its message). -/
def emitParsed (dataOpt : Option GoMap) : List Message :=
  match ParseMessage dataOpt with
  | .ok message => [message]
  | .error e => [.user ("Parse error: " ++ e.message)]

/-- The body of the receive loop after a successful unmarshal: discard
`control_response`-typed objects, otherwise parse and emit. -/
def processDecoded (dataOpt : Option GoMap) : List Message :=
  match messageTypeOf dataOpt with
  | some (.str messageType) =>
    if messageType = "control_response" then [] else emitParsed dataOpt
  | _ => emitParsed dataOpt

/-- The diagnostic User message emitted by the receive loop's 1 MiB check. -/
def bufferSizeDiag : Message :=
  .user ("JSON message exceeded maximum buffer size of " ++ toString maxBufferSize ++ " bytes")

/-- One iteration of the `scanner.Scan()` loop in `ReceiveMessages` for a
delivered line: trim, skip blank lines, emit the buffer-size diagnostic for
over-long lines, silently skip lines that fail raw JSON decoding, then
`processDecoded`.  Returns the messages sent to the channel for this line. -/
def processLine (decode : String → DecodeResult) (rawLine : String) : List Message :=
  let line := trimSpace rawLine
  if line = "" then []
  else if maxBufferSize < goLen line then [bufferSizeDiag]
  else
    match decode line with
    | .fail => []
    | .ok dataOpt => processDecoded dataOpt

/-- The `bufio.Scanner` over stdout: it delivers lines in order until either
the input is exhausted (second component `false`) or it meets a line longer
than its maximum token size, at which point `Scan` returns `false` with
`ErrTooLong` (second component `true`) and no further line is delivered. -/
def scannerSplit : List String → List String × Bool
  | [] => ([], false)
  | line :: rest =>
    if maxScanTokenSize < goLen line then ([], true)
    else
      let (delivered, tooLong) := scannerSplit rest
      (line :: delivered, tooLong)

/-- Diagnostic emitted when `scanner.Err()` is non-nil after the loop
(`"Scanner error: %v"` with `bufio.ErrTooLong`). -/
def scannerErrDiag : Message := .user "Scanner error: bufio.Scanner: token too long"

/-- The stderr collection loop of `handleProcessCompletion` (the 30 s
collection timeout is a real-time event outside this model; this is the
behaviour when all stderr lines arrive in time): accumulate lines, and once
the 10 MiB cap would be passed append the truncation marker and drain the
rest. -/
def collectStderr : List String → Nat → List String
  | [], _ => []
  | line :: rest, stderrSize =>
    if maxStderrSize < stderrSize + goLen line then
      ["[stderr truncated after " ++ toString stderrSize ++ " bytes]"]
    else line :: collectStderr rest (stderrSize + goLen line)

/-- `handleProcessCompletion`: join the collected stderr with newlines and,
when the awaited exit code is non-zero, send one final diagnostic User
message embedding the exit code and the stderr text. -/
def handleProcessCompletion (exitCode : Int) (stderrLines : List String) : List Message :=
  let stderrOutput := String.intercalate "\n" (collectStderr stderrLines 0)
  if exitCode = 0 then []
  else [.user ("Process failed with exit code " ++ toString exitCode ++ ": " ++ stderrOutput)]

/-- The messages produced from stdout by `ReceiveMessages`'s goroutine before
completion handling: the scanner-delivered lines each contribute their
`processLine` messages, and a scanner failure contributes the scanner-error
diagnostic. -/
def stdoutMessages (decode : String → DecodeResult) (stdoutLines : List String) : List Message :=
  let (delivered, tooLong) := scannerSplit stdoutLines
  (delivered.map (processLine decode)).flatten ++ (if tooLong then [scannerErrDiag] else [])

/-- The full ordered message stream delivered on the channel returned by
`ReceiveMessages` (absent cancellation): stdout messages, then the
process-completion diagnostic.  `stdoutLines` are the raw lines of the
subprocess's stdout, `exitCode` its awaited exit status and `stderrLines` its
stderr lines. -/
def receiveMessages (decode : String → DecodeResult) (stdoutLines : List String)
    (exitCode : Int) (stderrLines : List String) : List Message :=
  stdoutMessages decode stdoutLines ++ handleProcessCompletion exitCode stderrLines

/-! ## Command construction (`SubprocessTransport.buildCommand`) -/

/-- `internal/types.McpServerConfig`: all fields carry `omitempty` JSON tags. -/
structure McpServerConfig where
  «Type» : String
  Command : String
  Args : List String
  Env : List (String × String)
  URL : String
  Headers : List (String × String)
  deriving DecidableEq

/-- `internal/types.QueryOptions` (also re-exported as the public
`QueryOptions`); `PermissionMode` is a string type in the source. -/
structure QueryOptions where
  AllowedTools : List String
  MaxThinkingTokens : Int
  SystemPrompt : String
  AppendSystemPrompt : String
  McpTools : List String
  McpServers : List (String × McpServerConfig)
  PermissionMode : String
  ContinueConversation : Bool
  Resume : String
  MaxTurns : Int
  DisallowedTools : List String
  Model : String
  PermissionPromptToolName : String
  CWD : String
  deriving DecidableEq

/-- JSON string escaping as in `encoding/json` for the characters that need
it here (quote, backslash, control characters, and the HTML-escaped
`<`, `>`, `&`); other characters are emitted verbatim. -/
def jsonEscapeChar (c : Char) : String :=
  if c = '"' then "\\\""
  else if c = '\\' then "\\\\"
  else if c = '\n' then "\\n"
  else if c = '\r' then "\\r"
  else if c = '\t' then "\\t"
  else if c = '<' then "\\u003c"
  else if c = '>' then "\\u003e"
  else if c = '&' then "\\u0026"
  else String.singleton c

/-- A JSON string literal for `s`. -/
def jsonString (s : String) : String :=
  "\"" ++ String.join (s.data.map jsonEscapeChar) ++ "\""

/-- Insertion into a key-sorted association list (Go's `json.Marshal` emits
map keys in sorted order). -/
def insertByKey {α : Type} (p : String × α) : List (String × α) → List (String × α)
  | [] => [p]
  | q :: rest => if q.1 < p.1 then q :: insertByKey p rest else p :: q :: rest

/-- Sort an association list by key, as `json.Marshal` does for Go maps. -/
def sortByKey {α : Type} : List (String × α) → List (String × α)
  | [] => []
  | p :: rest => insertByKey p (sortByKey rest)

/-- `json.Marshal` of a `[]string`. -/
def jsonStrList (xs : List String) : String :=
  "[" ++ String.intercalate "," (xs.map jsonString) ++ "]"

/-- `json.Marshal` of a `map[string]string`. -/
def jsonStrMap (m : List (String × String)) : String :=
  "\x7b" ++
    String.intercalate ","
      ((sortByKey m).map fun p => jsonString p.1 ++ ":" ++ jsonString p.2) ++
  "\x7d"

/-- `json.Marshal` of one `McpServerConfig`: struct fields in declaration
order, each omitted when empty per its `omitempty` tag. -/
def mcpServerJSON (c : McpServerConfig) : String :=
  "\x7b" ++
    String.intercalate ","
      ((if c.«Type» ≠ "" then [jsonString "type" ++ ":" ++ jsonString c.«Type»] else []) ++
       (if c.Command ≠ "" then [jsonString "command" ++ ":" ++ jsonString c.Command] else []) ++
       (if c.Args ≠ [] then [jsonString "args" ++ ":" ++ jsonStrList c.Args] else []) ++
       (if c.Env ≠ [] then [jsonString "env" ++ ":" ++ jsonStrMap c.Env] else []) ++
       (if c.URL ≠ "" then [jsonString "url" ++ ":" ++ jsonString c.URL] else []) ++
       (if c.Headers ≠ [] then [jsonString "headers" ++ ":" ++ jsonStrMap c.Headers] else [])) ++
  "\x7d"

/-- `json.Marshal(map[string]any{"mcpServers": servers})`: the value handed
to `--mcp-config`. -/
def mcpConfigJSON (servers : List (String × McpServerConfig)) : String :=
  "\x7b\"mcpServers\":" ++
    ("\x7b" ++
      String.intercalate ","
        ((sortByKey servers).map fun p => jsonString p.1 ++ ":" ++ mcpServerJSON p.2) ++
     "\x7d") ++
  "\x7d"

/-- `SubprocessTransport.buildCommand`, translated statement by statement:
the `args` accumulator starts with the fixed prefix, each optional flag is
appended under its source condition in source order, and `--print` with the
prompt is appended last.  A `nil` options pointer skips the whole optional
block. -/
def buildCommand (options : Option QueryOptions) (prompt : String) : List String :=
  let args := ["--output-format", "stream-json", "--verbose"]
  let args := match options with
    | none => args
    | some o =>
      let args := if o.SystemPrompt ≠ "" then args ++ ["--system-prompt", o.SystemPrompt] else args
      let args := if o.AppendSystemPrompt ≠ "" then args ++ ["--append-system-prompt", o.AppendSystemPrompt] else args
      let args := if 0 < o.AllowedTools.length then args ++ ["--allowedTools", String.intercalate "," o.AllowedTools] else args
      let args := if 0 < o.MaxTurns then args ++ ["--max-turns", toString o.MaxTurns] else args
      let args := if 0 < o.DisallowedTools.length then args ++ ["--disallowedTools", String.intercalate "," o.DisallowedTools] else args
      let args := if o.Model ≠ "" then args ++ ["--model", o.Model] else args
      let args := if o.PermissionPromptToolName ≠ "" then args ++ ["--permission-prompt-tool", o.PermissionPromptToolName] else args
      let args := if o.PermissionMode ≠ "" then args ++ ["--permission-mode", o.PermissionMode] else args
      let args := if o.ContinueConversation then args ++ ["--continue"] else args
      let args := if o.Resume ≠ "" then args ++ ["--resume", o.Resume] else args
      let args := if 0 < o.McpServers.length then args ++ ["--mcp-config", mcpConfigJSON o.McpServers] else args
      args
  args ++ ["--print", prompt]

/-- Modelled from the spec (§6, subprocess invocation): the optional flag
segments in the documented order, each emitted exactly when its
configuration field is non-empty / true / positive. -/
def optionFlags (o : QueryOptions) : List String :=
  (if o.SystemPrompt ≠ "" then ["--system-prompt", o.SystemPrompt] else []) ++
  (if o.AppendSystemPrompt ≠ "" then ["--append-system-prompt", o.AppendSystemPrompt] else []) ++
  (if o.AllowedTools ≠ [] then ["--allowedTools", String.intercalate "," o.AllowedTools] else []) ++
  (if 0 < o.MaxTurns then ["--max-turns", toString o.MaxTurns] else []) ++
  (if o.DisallowedTools ≠ [] then ["--disallowedTools", String.intercalate "," o.DisallowedTools] else []) ++
  (if o.Model ≠ "" then ["--model", o.Model] else []) ++
  (if o.PermissionPromptToolName ≠ "" then ["--permission-prompt-tool", o.PermissionPromptToolName] else []) ++
  (if o.PermissionMode ≠ "" then ["--permission-mode", o.PermissionMode] else []) ++
  (if o.ContinueConversation then ["--continue"] else []) ++
  (if o.Resume ≠ "" then ["--resume", o.Resume] else []) ++
  (if o.McpServers ≠ [] then ["--mcp-config", mcpConfigJSON o.McpServers] else [])

/-- Modelled from the spec (§6, subprocess invocation): the argument list as
one concatenation — the fixed head, the optional flag segments in the
documented order, then `--print` and the prompt.  Used to state that
`buildCommand` refines the documented invocation. -/
def buildCommandSpec (o : QueryOptions) (prompt : String) : List String :=
  ["--output-format", "stream-json", "--verbose"] ++ optionFlags o ++ ["--print", prompt]

/-! ## Connection (`SubprocessTransport.Connect`) and the client facade -/

/-- `path/filepath.Base` on a slash-separated path: empty path gives `"."`,
trailing slashes are stripped, the part after the last remaining slash is
returned, and an all-slash path gives `"/"`. -/
def filepathBase (path : String) : String :=
  if path = "" then "."
  else
    let stripped := (path.data.reverse.dropWhile (· = '/')).reverse
    let last := (stripped.reverse.takeWhile (· ≠ '/')).reverse
    if last = [] then "/" else String.mk last

/-- The errors `Connect` can return (`internal/errors`): `CLIConnectionError`,
`CLINotFoundError` (carrying the searched path) and `ProcessError` (carrying
exit code and captured stderr). -/
inductive ConnectError where
  | connectionError (message : String)
  | cliNotFound (cliPath : String)
  | processError (message : String) (exitCode : Int) (stderr : String)
  deriving DecidableEq

/-- The observable outcomes of `Connect`'s external effects: whether
`os.Stat` finds the configured working directory, whether each pipe is
created, and whether `cmd.Start()` succeeds. -/
structure ConnectEnv where
  cwdExists : Bool
  stdinPipeOk : Bool
  stdoutPipeOk : Bool
  stderrPipeOk : Bool
  startOk : Bool
  deriving DecidableEq

/-- `SubprocessTransport.Connect` with an already-resolved CLI path (path
discovery via `cli.FindCLI` is an external collaborator, reached only when
the configured path is empty): check the working directory before anything
is started, create the three pipes, then start the process, classifying a
start failure by the base name of the CLI path. -/
def Connect (cliPath : String) (cwd : String) (env : ConnectEnv) : Except ConnectError Unit :=
  if cwd ≠ "" ∧ env.cwdExists = false then
    .error (.connectionError ("Working directory does not exist: " ++ cwd))
  else if env.stdinPipeOk = false then
    .error (.connectionError "failed to create stdin pipe")
  else if env.stdoutPipeOk = false then
    .error (.connectionError "failed to create stdout pipe")
  else if env.stderrPipeOk = false then
    .error (.connectionError "failed to create stderr pipe")
  else if env.startOk = false then
    if filepathBase cliPath = "claude" then .error (.cliNotFound cliPath)
    else .error (.processError "failed to start CLI process" 0 "")
  else .ok ()

/-- The client facade (`client.go`): its two configuration fields, both set
at construction from `ClientOptions`. -/
structure Client where
  cliPath : String
  cwd : String

/-- `transport.NewSubprocessTransport`: records the CLI path and working
directory the transport will use. -/
structure SubprocessTransport where
  cliPath : String
  cwd : String

/-- The transport constructed by `Client.Query` (client.go line 41):
`NewSubprocessTransport(c.cliPath, c.cwd)` — built from the client's own
fields only, before the per-query options are consulted. -/
def queryTransport (c : Client) (options : Option QueryOptions) (prompt : String) :
    SubprocessTransport :=
  let _ := options
  let _ := prompt
  { cliPath := c.cliPath, cwd := c.cwd }

/-! ## Helper lemmas -/

theorem append_ite {α : Type} (c : Prop) [Decidable c] (xs ys : List α) :
    (if c then xs ++ ys else xs) = xs ++ (if c then ys else []) := by
  split <;> simp

/-! ## C2: the argument list built for the subprocess -/

/-- C2.  For every prompt and every `QueryOptions` value, `buildCommand`
produces exactly the documented invocation: it equals the spec-side
concatenation `buildCommandSpec` (fixed head, optional flags in the fixed
documented order, each present exactly under its field's condition, with
list flags comma-joined and `--mcp-config` carrying the `mcpServers` JSON
object), in particular it begins with
`--output-format stream-json --verbose` and ends with `--print <prompt>`. -/
theorem buildCommand_eq_spec (o : QueryOptions) (prompt : String) :
    buildCommand (some o) prompt = buildCommandSpec o prompt ∧
    (buildCommand (some o) prompt).take 3 = ["--output-format", "stream-json", "--verbose"] ∧
    (∃ mid, buildCommand (some o) prompt =
      ["--output-format", "stream-json", "--verbose"] ++ mid ++ ["--print", prompt]) ∧
    (∀ servers, ∃ inner,
      mcpConfigJSON servers = "\x7b\"mcpServers\":" ++ inner ++ "\x7d") := by
  have h : buildCommand (some o) prompt = buildCommandSpec o prompt := by
    simp only [buildCommand]
    simp only [append_ite]
    simp only [buildCommandSpec, optionFlags, List.length_pos, List.append_assoc]
  refine ⟨h, ?_, ?_, ?_⟩
  · rw [h]; rfl
  · exact ⟨optionFlags o, by rw [h]; simp [buildCommandSpec, List.append_assoc]⟩
  · intro servers
    exact ⟨"\x7b" ++ String.intercalate ","
      ((sortByKey servers).map fun p => jsonString p.1 ++ ":" ++ mcpServerJSON p.2) ++ "\x7d",
      rfl⟩

/-! ## C10: QueryOptions fields that never reach the invocation -/

/-- C10.  `buildCommand` is invariant under arbitrary changes to the
`MaxThinkingTokens`, `McpTools` and `CWD` fields of `QueryOptions`, and the
transport constructed by `Client.Query` takes its working directory from the
client (`ClientOptions.CWD`) alone, independent of the per-query options. -/
theorem buildCommand_ignores_unused_options (o : QueryOptions) (prompt : String)
    (x : Int) (y : List String) (z : String) :
    buildCommand (some { o with MaxThinkingTokens := x, McpTools := y, CWD := z }) prompt
      = buildCommand (some o) prompt ∧
    (∀ (c : Client) (options : Option QueryOptions),
      (queryTransport c options prompt).cwd = c.cwd ∧
      queryTransport c options prompt = queryTransport c none prompt) := by
  exact ⟨rfl, fun c options => ⟨rfl, rfl⟩⟩

/-! ## C8: Connect failure classification -/

/-- C8.  `Connect` fails with a `ConnectionError` when a working directory is
configured but absent (decided before the process is started, whatever the
start outcome would be); and when process start fails it fails with
`CLINotFoundError` exactly when the resolved executable's base name is
`claude`, and with a generic `ProcessError` carrying exit code 0 and empty
stderr otherwise. -/
theorem Connect_failure_modes (cliPath cwd : String) (env : ConnectEnv) :
    (cwd ≠ "" → env.cwdExists = false →
      Connect cliPath cwd env =
        .error (.connectionError ("Working directory does not exist: " ++ cwd))) ∧
    (env.stdinPipeOk = true → env.stdoutPipeOk = true → env.stderrPipeOk = true →
      (cwd = "" ∨ env.cwdExists = true) → env.startOk = false →
      ((Connect cliPath cwd env = .error (.cliNotFound cliPath)) ↔
        filepathBase cliPath = "claude") ∧
      (filepathBase cliPath ≠ "claude" →
        Connect cliPath cwd env =
          .error (.processError "failed to start CLI process" 0 ""))) := by
  constructor
  · intro h1 h2
    simp [Connect, h1, h2]
  · intro hp1 hp2 hp3 h4 hstart
    have hcond : ¬(cwd ≠ "" ∧ env.cwdExists = false) := by
      rcases h4 with h | h <;> simp [h]
    constructor
    · by_cases hb : filepathBase cliPath = "claude" <;>
        simp [Connect, hcond, hp1, hp2, hp3, hstart, hb]
    · intro hb
      simp [Connect, hcond, hp1, hp2, hp3, hstart, hb]

/-- Witness for C8 at concrete inputs: a missing working directory, a start
failure with base name `claude`, and a start failure with a different base
name. -/
theorem Connect_failure_modes_witness :
    Connect "/usr/local/bin/claude" "/missing" ⟨false, true, true, true, false⟩
      = .error (.connectionError "Working directory does not exist: /missing") ∧
    Connect "/usr/local/bin/claude" "" ⟨false, true, true, true, false⟩
      = .error (.cliNotFound "/usr/local/bin/claude") ∧
    Connect "/opt/agent-wrapper" "" ⟨true, true, true, true, false⟩
      = .error (.processError "failed to start CLI process" 0 "") := by
  refine ⟨?_, ?_, ?_⟩
  · exact (Connect_failure_modes "/usr/local/bin/claude" "/missing"
      ⟨false, true, true, true, false⟩).1 (by decide) rfl
  · exact ((Connect_failure_modes "/usr/local/bin/claude" ""
      ⟨false, true, true, true, false⟩).2 rfl rfl rfl (Or.inl rfl) rfl).1.mpr (by decide)
  · exact ((Connect_failure_modes "/opt/agent-wrapper" ""
      ⟨true, true, true, true, false⟩).2 rfl rfl rfl (Or.inl rfl) rfl).2 (by decide)

/-! ## C7: the final diagnostic for a non-zero exit -/

/-- C7.  When the subprocess exits non-zero, the stream ends with exactly one
extra diagnostic User message embedding the exit code and the collected
stderr text (it is the stream's last message); when the exit code is zero no
completion diagnostic is emitted.  At exit code 3 with stderr `boom` the
diagnostic's text contains both `3` and `boom`. -/
theorem completion_diagnostic (decode : String → DecodeResult)
    (stdoutLines stderrLines : List String) (exitCode : Int) :
    (exitCode ≠ 0 →
      receiveMessages decode stdoutLines exitCode stderrLines =
        stdoutMessages decode stdoutLines ++
          [.user ("Process failed with exit code " ++ toString exitCode ++ ": " ++
            String.intercalate "\n" (collectStderr stderrLines 0))] ∧
      (receiveMessages decode stdoutLines exitCode stderrLines).getLast? =
        some (.user ("Process failed with exit code " ++ toString exitCode ++ ": " ++
          String.intercalate "\n" (collectStderr stderrLines 0)))) ∧
    (exitCode = 0 →
      receiveMessages decode stdoutLines exitCode stderrLines =
        stdoutMessages decode stdoutLines) ∧
    handleProcessCompletion 3 ["boom"] =
      [.user ("Process failed with exit code " ++ "3" ++ ": boom")] ∧
    handleProcessCompletion 3 ["boom"] =
      [.user ("Process failed with exit code 3: " ++ "boom" ++ "")] := by
  refine ⟨?_, ?_, rfl, rfl⟩
  · intro h
    have heq : receiveMessages decode stdoutLines exitCode stderrLines =
        stdoutMessages decode stdoutLines ++
          [.user ("Process failed with exit code " ++ toString exitCode ++ ": " ++
            String.intercalate "\n" (collectStderr stderrLines 0))] := by
      simp [receiveMessages, handleProcessCompletion, h]
    exact ⟨heq, by rw [heq]; simp⟩
  · intro h
    simp [receiveMessages, handleProcessCompletion, h]

/-! ## Byte-length and scanner lemmas -/

theorem utf8Len_reverse (l : List Char) : utf8Len l.reverse = utf8Len l := by
  simp [utf8Len, List.map_reverse, List.sum_reverse]

theorem utf8Len_dropWhile_le (p : Char → Bool) (l : List Char) :
    utf8Len (l.dropWhile p) ≤ utf8Len l := by
  induction l with
  | nil => simp
  | cons a l ih =>
    by_cases h : p a
    · calc utf8Len ((a :: l).dropWhile p) = utf8Len (l.dropWhile p) := by
            simp [List.dropWhile_cons, h]
        _ ≤ utf8Len l := ih
        _ ≤ utf8Len (a :: l) := by simp [utf8Len]
    · simp [List.dropWhile_cons, h]

theorem goLen_trimSpace_le (s : String) : goLen (trimSpace s) ≤ goLen s :=
  calc goLen (trimSpace s)
      = utf8Len (((s.data.dropWhile goIsSpace).reverse.dropWhile goIsSpace).reverse) := rfl
    _ = utf8Len ((s.data.dropWhile goIsSpace).reverse.dropWhile goIsSpace) := utf8Len_reverse _
    _ ≤ utf8Len (s.data.dropWhile goIsSpace).reverse := utf8Len_dropWhile_le _ _
    _ = utf8Len (s.data.dropWhile goIsSpace) := utf8Len_reverse _
    _ ≤ utf8Len s.data := utf8Len_dropWhile_le _ _

theorem scannerSplit_cons_le (line : String) (rest : List String)
    (h : goLen line ≤ maxScanTokenSize) :
    scannerSplit (line :: rest) = (line :: (scannerSplit rest).1, (scannerSplit rest).2) := by
  rcases hsr : scannerSplit rest with ⟨delivered, tooLong⟩
  simp [scannerSplit, Nat.not_lt.mpr h, hsr]

theorem stdoutMessages_cons (decode : String → DecodeResult) (line : String)
    (rest : List String) (h : goLen line ≤ maxScanTokenSize) :
    stdoutMessages decode (line :: rest) =
      processLine decode line ++ stdoutMessages decode rest := by
  rcases hsr : scannerSplit rest with ⟨delivered, tooLong⟩
  simp [stdoutMessages, scannerSplit_cons_le line rest h, hsr, List.append_assoc]

theorem processDecoded_not_control (dataOpt : Option GoMap)
    (hctrl : messageTypeOf dataOpt ≠ some (.str "control_response")) :
    processDecoded dataOpt = emitParsed dataOpt := by
  rcases h : messageTypeOf dataOpt with _ | v
  · simp [processDecoded, h]
  · cases v with
    | str s =>
      have hs : s ≠ "control_response" := by rintro rfl; exact hctrl h
      simp [processDecoded, h, hs]
    | int n => simp [processDecoded, h]
    | int64 n => simp [processDecoded, h]
    | float q => simp [processDecoded, h]
    | bool b => simp [processDecoded, h]
    | null => simp [processDecoded, h]
    | arr a => simp [processDecoded, h]
    | obj m => simp [processDecoded, h]

/-! ## C1: in-stream failure handling -/

/-- C1.  For a stdout line the scanner delivers to the receive loop: the
loop keeps consuming the remaining lines after it in every case, a line
failing raw JSON decoding contributes no message, a decoded object typed
`control_response` contributes no message, and a decoded object that
`ParseMessage` rejects contributes exactly one diagnostic User message
carrying the parse error. -/
theorem receiveMessages_inStream_failures (decode : String → DecodeResult)
    (line : String) (rest : List String) (exitCode : Int) (stderrLines : List String)
    (hlen : goLen line ≤ maxScanTokenSize) :
    receiveMessages decode (line :: rest) exitCode stderrLines =
      processLine decode line ++ receiveMessages decode rest exitCode stderrLines ∧
    (decode (trimSpace line) = .fail → processLine decode line = []) ∧
    (∀ data, decode (trimSpace line) = .ok (some data) →
      goGet data "type" = some (.str "control_response") →
      processLine decode line = []) ∧
    (∀ dataOpt e, trimSpace line ≠ "" → decode (trimSpace line) = .ok dataOpt →
      messageTypeOf dataOpt ≠ some (.str "control_response") →
      ParseMessage dataOpt = .error e →
      processLine decode line = [.user ("Parse error: " ++ e.message)]) := by
  have hbuf : ¬ maxBufferSize < goLen (trimSpace line) := by
    have h1 : goLen (trimSpace line) ≤ maxScanTokenSize :=
      le_trans (goLen_trimSpace_le line) hlen
    have h2 : maxScanTokenSize ≤ maxBufferSize := by decide
    omega
  refine ⟨?_, ?_, ?_, ?_⟩
  · simp [receiveMessages, stdoutMessages_cons decode line rest hlen, List.append_assoc]
  · intro hf
    by_cases he : trimSpace line = ""
    · simp [processLine, he]
    · simp [processLine, he, hbuf, hf]
  · intro data hdec hctrl
    by_cases he : trimSpace line = ""
    · simp [processLine, he]
    · simp [processLine, he, hbuf, hdec, processDecoded, messageTypeOf, hctrl]
  · intro dataOpt e hne hdec hctrl hperr
    simp [processLine, hne, hbuf, hdec, processDecoded_not_control dataOpt hctrl,
      emitParsed, hperr]

/-- Decode stub for the C1 witness: every line fails raw JSON decoding. -/
def decodeFail : String → DecodeResult := fun _ => .fail

/-- Decode stub for the C1 witness: every line decodes to a
`control_response`-typed object. -/
def decodeControl : String → DecodeResult :=
  fun _ => .ok (some [("type", .str "control_response")])

/-- Decode stub for the C1 witness: every line decodes to an empty object,
which `ParseMessage` rejects. -/
def decodeEmptyObj : String → DecodeResult := fun _ => .ok (some [])

/-- Witness for C1: the three in-stream failure cases at concrete lines, and
the continuation equation. -/
theorem receiveMessages_inStream_failures_witness :
    receiveMessages decodeFail ["notjson", "x"] 0 [] =
      processLine decodeFail "notjson" ++ receiveMessages decodeFail ["x"] 0 [] ∧
    processLine decodeFail "notjson" = [] ∧
    processLine decodeControl "ctrl" = [] ∧
    processLine decodeEmptyObj "obj" = [.user "Parse error: Message missing 'type' field"] := by
  have h1 := receiveMessages_inStream_failures decodeFail "notjson" ["x"] 0 [] (by decide)
  have h2 := receiveMessages_inStream_failures decodeControl "ctrl" [] 0 [] (by decide)
  have h3 := receiveMessages_inStream_failures decodeEmptyObj "obj" [] 0 [] (by decide)
  refine ⟨h1.1, h1.2.1 rfl, ?_, ?_⟩
  · exact h2.2.2.1 [("type", .str "control_response")] rfl rfl
  · exact h3.2.2.2 (some []) ⟨"Message missing 'type' field", .obj []⟩ (by decide) rfl
      (by simp [messageTypeOf, goGet]) rfl

/-! ## C4: lines beyond the scanner's token bound -/

/-- The delivered lines of the scanner never reach the receive loop's 1 MiB
check: each is at most `maxScanTokenSize` bytes, hence (after trimming) well
under `maxBufferSize`. -/
theorem scannerSplit_delivered_trim_le (lines : List String) :
    ∀ l ∈ (scannerSplit lines).1, goLen (trimSpace l) ≤ maxBufferSize := by
  induction lines with
  | nil => simp [scannerSplit]
  | cons line rest ih =>
    intro l hl
    by_cases h : maxScanTokenSize < goLen line
    · simp [scannerSplit, h] at hl
    · rw [scannerSplit_cons_le line rest (Nat.not_lt.mp h)] at hl
      rcases List.mem_cons.mp hl with rfl | hl
      · have h1 : goLen (trimSpace l) ≤ maxScanTokenSize :=
          le_trans (goLen_trimSpace_le l) (Nat.not_lt.mp h)
        have h2 : maxScanTokenSize ≤ maxBufferSize := by decide
        omega
      · exact ih l hl

/-- C4, as the code actually behaves (the claim describes the intended 1 MiB
diagnostic branch, which is unreachable): a stdout line longer than
`maxBufferSize` exceeds the scanner's 64 KiB default token bound, so the
scanner stops with `ErrTooLong` before the 1 MiB check can fire — the stream
gets the scanner-error diagnostic, no buffer-size diagnostic, the remaining
lines are never processed, and only completion handling follows; moreover no
scanner-delivered line can ever trip the 1 MiB check. -/
theorem oversizedLine_terminates_stream (decode : String → DecodeResult)
    (line : String) (rest : List String) (exitCode : Int) (stderrLines : List String)
    (h : maxBufferSize < goLen line) :
    receiveMessages decode (line :: rest) exitCode stderrLines =
      scannerErrDiag :: handleProcessCompletion exitCode stderrLines ∧
    (∀ lines l, l ∈ (scannerSplit lines).1 → goLen (trimSpace l) ≤ maxBufferSize) := by
  have h' : maxScanTokenSize < goLen line := by
    have : maxScanTokenSize < maxBufferSize := by decide
    omega
  constructor
  · simp [receiveMessages, stdoutMessages, scannerSplit, h', scannerErrDiag]
  · exact fun lines => scannerSplit_delivered_trim_le lines

/-- A 1 MiB + 1 byte line of `a` characters. -/
def bigLine : String := String.mk (List.replicate (maxBufferSize + 1) 'a')

theorem goLen_bigLine : goLen bigLine = maxBufferSize + 1 := by
  have ha : ('a').utf8Size = 1 := rfl
  show utf8Len (List.replicate (maxBufferSize + 1) 'a') = maxBufferSize + 1
  simp [utf8Len, List.map_replicate, List.sum_replicate, smul_eq_mul, ha]

/-- Decode stub for the C4 witness. -/
def decodeNone : String → DecodeResult := fun _ => .fail

/-- Witness for C4 at a concrete oversized line: the stream collapses to the
scanner-error diagnostic plus completion handling, and the following line is
never processed. -/
theorem oversizedLine_terminates_stream_witness :
    maxBufferSize < goLen bigLine ∧
    receiveMessages decodeNone [bigLine, "after"] 3 ["boom"] =
      scannerErrDiag :: handleProcessCompletion 3 ["boom"] := by
  have hb : maxBufferSize < goLen bigLine := by rw [goLen_bigLine]; omega
  exact ⟨hb, (oversizedLine_terminates_stream decodeNone bigLine ["after"] 3 ["boom"] hb).1⟩

/-- Witness for C7 at exit code 3 with stderr `boom` (and the zero-exit case
at exit code 0). -/
theorem completion_diagnostic_witness :
    receiveMessages (fun _ => .fail) [] 3 ["boom"] =
      [.user "Process failed with exit code 3: boom"] ∧
    (receiveMessages (fun _ => .fail) [] 3 ["boom"]).getLast? =
      some (.user "Process failed with exit code 3: boom") ∧
    receiveMessages (fun _ => .fail) [] 0 ["boom"] = [] := by
  refine ⟨?_, ?_, ?_⟩
  · exact ((completion_diagnostic (fun _ => .fail) [] ["boom"] 3).1 (by decide)).1
  · exact ((completion_diagnostic (fun _ => .fail) [] ["boom"] 3).1 (by decide)).2
  · exact (completion_diagnostic (fun _ => .fail) [] ["boom"] 0).2.1 rfl

/-! ## C3 and C9: the Result message parser -/

/-- Modelled from the spec (§4.1, Result messages): the required fields —
`subtype` a string, `duration_ms`, `duration_api_ms` and `num_turns`
numeric, `is_error` a boolean, `session_id` a string. -/
def resultRequiredOK (data : GoMap) : Bool :=
  (match goGet data "subtype" with | some (.str _) => true | _ => false) &&
  (getIntField data "duration_ms").isSome &&
  (getIntField data "duration_api_ms").isSome &&
  (match goGet data "is_error" with | some (.bool _) => true | _ => false) &&
  (getIntField data "num_turns").isSome &&
  (match goGet data "session_id" with | some (.str _) => true | _ => false)

theorem parseResult_isOk (data : GoMap) :
    exceptIsOk (parseResultMessage data) = resultRequiredOK data := by
  unfold parseResultMessage resultRequiredOK
  repeat' split
  all_goals simp_all [exceptIsOk, Option.isSome_iff_exists,
    Option.eq_none_iff_forall_not_mem, Option.mem_def]

theorem parseResult_ok_fields (data : GoMap) (r : ResultMessage)
    (h : parseResultMessage data = .ok r) :
    goGet data "subtype" = some (.str r.Subtype) ∧
    getIntField data "duration_ms" = some r.DurationMs ∧
    getIntField data "duration_api_ms" = some r.DurationAPIMs ∧
    goGet data "is_error" = some (.bool r.IsError) ∧
    getIntField data "num_turns" = some r.NumTurns ∧
    goGet data "session_id" = some (.str r.SessionID) ∧
    r.TotalCostUSD = (match goGet data "total_cost_usd" with
      | some (.float c) => some c | _ => none) ∧
    r.Usage = (match goGet data "usage" with | some (.obj u) => some u | _ => none) ∧
    r.Result = (match goGet data "result" with | some (.str s) => some s | _ => none) := by
  unfold parseResultMessage at h
  repeat' split at h
  all_goals cases h
  all_goals simp_all

/-- The spec's worked Result example, as decoded by `encoding/json` (all JSON
numbers arrive as `float64`). -/
def exampleResultData : GoMap :=
  [("type", .str "result"), ("subtype", .str "success"), ("duration_ms", .float 1000),
   ("duration_api_ms", .float 800), ("is_error", .bool false), ("num_turns", .float 2),
   ("session_id", .str "abc")]

/-- The Result message the spec's worked example must produce. -/
def exampleResult : ResultMessage :=
  { Subtype := "success", DurationMs := 1000, DurationAPIMs := 800, IsError := false,
    NumTurns := 2, SessionID := "abc", TotalCostUSD := none, Usage := none, Result := none }

/-- C3.  `parseResultMessage` succeeds exactly when the required fields
(`subtype` string; `duration_ms`, `duration_api_ms`, `num_turns` numeric,
integer or float, truncated; `is_error` boolean; `session_id` string) are
present and well-shaped; on success the required fields carry the looked-up
values and the optional fields (`total_cost_usd` float, `usage` mapping,
`result` string) are attached exactly when present and well-typed, their
absence or ill-typing never causing failure; and the spec's worked example
parses to exactly the stated Result message with all optional fields
absent. -/
theorem parseResultMessage_contract :
    (∀ data, exceptIsOk (parseResultMessage data) = resultRequiredOK data) ∧
    (∀ data r, parseResultMessage data = .ok r →
      goGet data "subtype" = some (.str r.Subtype) ∧
      getIntField data "duration_ms" = some r.DurationMs ∧
      getIntField data "duration_api_ms" = some r.DurationAPIMs ∧
      goGet data "is_error" = some (.bool r.IsError) ∧
      getIntField data "num_turns" = some r.NumTurns ∧
      goGet data "session_id" = some (.str r.SessionID) ∧
      r.TotalCostUSD = (match goGet data "total_cost_usd" with
        | some (.float c) => some c | _ => none) ∧
      r.Usage = (match goGet data "usage" with | some (.obj u) => some u | _ => none) ∧
      r.Result = (match goGet data "result" with | some (.str s) => some s | _ => none)) ∧
    ParseMessage (some exampleResultData) = .ok (.result exampleResult) := by
  exact ⟨parseResult_isOk, parseResult_ok_fields, rfl⟩

/-- Witness for C3 at the spec's worked example. -/
theorem parseResultMessage_contract_witness :
    exceptIsOk (parseResultMessage exampleResultData) = resultRequiredOK exampleResultData ∧
    getIntField exampleResultData "duration_ms" = some exampleResult.DurationMs ∧
    exampleResult.TotalCostUSD = none := by
  refine ⟨parseResultMessage_contract.1 exampleResultData, ?_, ?_⟩
  · exact (parseResultMessage_contract.2.1 exampleResultData exampleResult rfl).2.1
  · exact (parseResultMessage_contract.2.1 exampleResultData exampleResult rfl).2.2.2.2.2.2.1

/-- Non-negativity of the numeric JSON value supplied for a field — the extra
hypothesis under which the spec's invariant does hold. -/
def goValNonNeg : GoVal → Prop
  | .int n => 0 ≤ n
  | .int64 n => 0 ≤ n
  | .float q => 0 ≤ q
  | _ => True

theorem goTrunc_nonneg (q : Rat) (h : 0 ≤ q) : 0 ≤ goTrunc q :=
  Int.tdiv_nonneg (Rat.num_nonneg.mpr h) (Int.ofNat_nonneg _)

theorem getIntField_nonneg (data : GoMap) (k : String) (n : Int)
    (hget : getIntField data k = some n)
    (hnn : ∀ v, goGet data k = some v → goValNonNeg v) : 0 ≤ n := by
  rcases hv : goGet data k with _ | v
  · simp [getIntField, hv] at hget
  · have hvn := hnn v hv
    cases v with
    | int m => simp [getIntField, hv] at hget; exact hget ▸ hvn
    | int64 m => simp [getIntField, hv] at hget; exact hget ▸ hvn
    | float q => simp [getIntField, hv] at hget; exact hget ▸ goTrunc_nonneg q hvn
    | str s => simp [getIntField, hv] at hget
    | bool b => simp [getIntField, hv] at hget
    | null => simp [getIntField, hv] at hget
    | arr a => simp [getIntField, hv] at hget
    | obj m => simp [getIntField, hv] at hget

/-- A Result object whose `duration_ms` is the JSON number `-5`: all required
fields are well-shaped, so parsing succeeds — with a negative duration. -/
def negDurationData : GoMap :=
  [("type", .str "result"), ("subtype", .str "error_during_execution"),
   ("duration_ms", .float (-5)), ("duration_api_ms", .float 800),
   ("is_error", .bool true), ("num_turns", .float 2), ("session_id", .str "abc")]

/-- What `parseResultMessage` produces for `negDurationData`. -/
def negDurationResult : ResultMessage :=
  { Subtype := "error_during_execution", DurationMs := -5, DurationAPIMs := 800,
    IsError := true, NumTurns := 2, SessionID := "abc",
    TotalCostUSD := none, Usage := none, Result := none }

/-- A Result object whose `session_id` is the empty string: parsing succeeds
with an empty `SessionID`. -/
def emptySessionData : GoMap :=
  [("type", .str "result"), ("subtype", .str "success"),
   ("duration_ms", .float 1000), ("duration_api_ms", .float 800),
   ("is_error", .bool false), ("num_turns", .float 2), ("session_id", .str "")]

/-- What `parseResultMessage` produces for `emptySessionData`. -/
def emptySessionResult : ResultMessage :=
  { Subtype := "success", DurationMs := 1000, DurationAPIMs := 800,
    IsError := false, NumTurns := 2, SessionID := "",
    TotalCostUSD := none, Usage := none, Result := none }

/-- Counterexample to C9 as stated: the parser enforces neither
non-negativity of the numeric fields nor non-emptiness of `session_id` —
a negative `duration_ms` and an empty `session_id` both parse successfully. -/
theorem parseResult_invariant_cex :
    parseResultMessage negDurationData = .ok negDurationResult ∧
    negDurationResult.DurationMs < 0 ∧
    parseResultMessage emptySessionData = .ok emptySessionResult ∧
    emptySessionResult.SessionID = "" := by
  exact ⟨rfl, by decide, rfl, rfl⟩

/-- C9 (amended).  When `parseResultMessage` succeeds and the supplied JSON
values for `duration_ms`, `duration_api_ms` and `num_turns` are non-negative
numbers and the supplied `session_id` is a non-empty string, the parsed
message's `DurationMs`, `DurationAPIMs` and `NumTurns` are non-negative
integers and its `SessionID` is non-empty.  (The unconditional invariant of
the claim fails: see the counterexample.) -/
theorem parseResult_nonneg_of_nonneg_inputs (data : GoMap) (r : ResultMessage)
    (h : parseResultMessage data = .ok r)
    (h1 : ∀ v, goGet data "duration_ms" = some v → goValNonNeg v)
    (h2 : ∀ v, goGet data "duration_api_ms" = some v → goValNonNeg v)
    (h3 : ∀ v, goGet data "num_turns" = some v → goValNonNeg v)
    (h4 : goGet data "session_id" ≠ some (.str "")) :
    0 ≤ r.DurationMs ∧ 0 ≤ r.DurationAPIMs ∧ 0 ≤ r.NumTurns ∧ r.SessionID ≠ "" := by
  obtain ⟨hs, hd, hda, hie, hnt, hsid, -, -, -⟩ := parseResult_ok_fields data r h
  refine ⟨getIntField_nonneg data _ _ hd h1, getIntField_nonneg data _ _ hda h2,
    getIntField_nonneg data _ _ hnt h3, ?_⟩
  intro hempty
  exact h4 (by rw [hsid, hempty])

/-- The rational 5/2, in reduced constructor form so that evaluation is
definitional. -/
def fiveHalves : Rat := Rat.mk' 5 2

/-- A well-formed Result object with non-negative numeric inputs (one of them
the fractional `5/2`, truncated to `2`) and a non-empty session id. -/
def wNonNegData : GoMap :=
  [("subtype", .str "success"), ("duration_ms", .int 5), ("duration_api_ms", .int64 7),
   ("num_turns", .float fiveHalves), ("is_error", .bool false), ("session_id", .str "s1")]

/-- What `parseResultMessage` produces for `wNonNegData`. -/
def wNonNegResult : ResultMessage :=
  { Subtype := "success", DurationMs := 5, DurationAPIMs := 7, IsError := false,
    NumTurns := 2, SessionID := "s1", TotalCostUSD := none, Usage := none, Result := none }

/-- Witness for the amended C9 at a concrete well-formed input. -/
theorem parseResult_nonneg_of_nonneg_inputs_witness :
    0 ≤ wNonNegResult.DurationMs ∧ 0 ≤ wNonNegResult.DurationAPIMs ∧
    0 ≤ wNonNegResult.NumTurns ∧ wNonNegResult.SessionID ≠ "" := by
  refine parseResult_nonneg_of_nonneg_inputs wNonNegData wNonNegResult rfl ?_ ?_ ?_ ?_
  · intro v hv
    rw [show goGet wNonNegData "duration_ms" = some (.int 5) from rfl] at hv
    cases hv
    norm_num [goValNonNeg]
  · intro v hv
    rw [show goGet wNonNegData "duration_api_ms" = some (.int64 7) from rfl] at hv
    cases hv
    norm_num [goValNonNeg]
  · intro v hv
    rw [show goGet wNonNegData "num_turns" = some (.float fiveHalves) from rfl] at hv
    cases hv
    show 0 ≤ fiveHalves
    exact Rat.num_nonneg.mp (by decide)
  · simp [wNonNegData, goGet]

/-! ## C5: the User message parser's payload precedence -/

/-- The tool-result content a nested-array element offers: `some s` for a
`tool_result`-typed object whose `content` field is the string `s`, `none`
otherwise — the elements the extraction loop skips. -/
def toolResultContentOf (b : GoVal) : Option String :=
  match b with
  | .obj bm =>
    match goGet bm "type" with
    | some (.str t) =>
      if t = "tool_result" then
        match goGet bm "content" with
        | some (.str s) => some s
        | _ => none
      else none
    | _ => none
  | _ => none

theorem extractToolResultContent_cons (b : GoVal) (rest : List GoVal) :
    extractToolResultContent (b :: rest) =
      (match toolResultContentOf b with
       | some s => s
       | none => extractToolResultContent rest) := by
  cases b with
  | obj bm =>
    rcases ht : goGet bm "type" with _ | v
    · simp [extractToolResultContent, toolResultContentOf, ht]
    · cases v with
      | str t =>
        by_cases htr : t = "tool_result"
        · subst htr
          rcases hc : goGet bm "content" with _ | w
          · simp [extractToolResultContent, toolResultContentOf, ht, hc]
          · cases w <;> simp [extractToolResultContent, toolResultContentOf, ht, hc]
        · simp [extractToolResultContent, toolResultContentOf, ht, htr]
      | int n => simp [extractToolResultContent, toolResultContentOf, ht]
      | int64 n => simp [extractToolResultContent, toolResultContentOf, ht]
      | float q => simp [extractToolResultContent, toolResultContentOf, ht]
      | bool b => simp [extractToolResultContent, toolResultContentOf, ht]
      | null => simp [extractToolResultContent, toolResultContentOf, ht]
      | arr a => simp [extractToolResultContent, toolResultContentOf, ht]
      | obj m => simp [extractToolResultContent, toolResultContentOf, ht]
  | str s => simp [extractToolResultContent, toolResultContentOf]
  | int n => simp [extractToolResultContent, toolResultContentOf]
  | int64 n => simp [extractToolResultContent, toolResultContentOf]
  | float q => simp [extractToolResultContent, toolResultContentOf]
  | bool b' => simp [extractToolResultContent, toolResultContentOf]
  | null => simp [extractToolResultContent, toolResultContentOf]
  | arr a => simp [extractToolResultContent, toolResultContentOf]

/-- Modelled from the spec (§4.1, User messages): whether the nested
`message.content` payload shape (string or array) applies. -/
def userNestedApplies (data : GoMap) : Bool :=
  match goGet data "message" with
  | some (.obj message) =>
    match goGet message "content" with
    | some (.str _) => true
    | some (.arr _) => true
    | _ => false
  | _ => false

/-- Modelled from the spec (§4.1, User messages): whether any of the three
accepted payload shapes applies — nested string, nested array, or top-level
`content` string. -/
def userShapeOK (data : GoMap) : Bool :=
  userNestedApplies data ||
  (match goGet data "content" with | some (.str _) => true | _ => false)

theorem parseUser_isOk (data : GoMap) :
    exceptIsOk (parseUserMessage data) = userShapeOK data := by
  unfold parseUserMessage parseUserTopLevel userShapeOK userNestedApplies
  repeat' split
  all_goals simp_all [exceptIsOk]

/-- C5.  `parseUserMessage` tries the payload shapes in the documented
precedence order — nested `message.content` string first, then nested
`message.content` array (from which the first `tool_result` block with a
string `content` supplies the text, the fixed placeholder standing in when
no element does), then top-level `content` string — and it fails exactly
when none of the three shapes applies. -/
theorem parseUserMessage_precedence :
    (∀ data message content, goGet data "message" = some (.obj message) →
      goGet message "content" = some (.str content) →
      parseUserMessage data = .ok (.user content)) ∧
    (∀ data message contentArray, goGet data "message" = some (.obj message) →
      goGet message "content" = some (.arr contentArray) →
      parseUserMessage data = .ok (.user (extractToolResultContent contentArray))) ∧
    (∀ data content, userNestedApplies data = false →
      goGet data "content" = some (.str content) →
      parseUserMessage data = .ok (.user content)) ∧
    (∀ data, exceptIsOk (parseUserMessage data) = userShapeOK data) ∧
    (∀ b rest s, toolResultContentOf b = some s →
      extractToolResultContent (b :: rest) = s) ∧
    (∀ b rest, toolResultContentOf b = none →
      extractToolResultContent (b :: rest) = extractToolResultContent rest) ∧
    extractToolResultContent [] = "[Tool result message]" := by
  refine ⟨?_, ?_, ?_, parseUser_isOk, ?_, ?_, rfl⟩
  · intro data message content h1 h2
    simp [parseUserMessage, h1, h2]
  · intro data message contentArray h1 h2
    simp [parseUserMessage, h1, h2]
  · intro data content hnested htop
    rcases hm : goGet data "message" with _ | v
    · simp [parseUserMessage, parseUserTopLevel, hm, htop]
    · cases v with
      | obj message =>
        rcases hc : goGet message "content" with _ | w
        · simp [parseUserMessage, parseUserTopLevel, hm, hc, htop]
        · cases w with
          | str s => simp [userNestedApplies, hm, hc] at hnested
          | arr a => simp [userNestedApplies, hm, hc] at hnested
          | int n => simp [parseUserMessage, parseUserTopLevel, hm, hc, htop]
          | int64 n => simp [parseUserMessage, parseUserTopLevel, hm, hc, htop]
          | float q => simp [parseUserMessage, parseUserTopLevel, hm, hc, htop]
          | bool b => simp [parseUserMessage, parseUserTopLevel, hm, hc, htop]
          | null => simp [parseUserMessage, parseUserTopLevel, hm, hc, htop]
          | obj m => simp [parseUserMessage, parseUserTopLevel, hm, hc, htop]
      | str s => simp [parseUserMessage, parseUserTopLevel, hm, htop]
      | int n => simp [parseUserMessage, parseUserTopLevel, hm, htop]
      | int64 n => simp [parseUserMessage, parseUserTopLevel, hm, htop]
      | float q => simp [parseUserMessage, parseUserTopLevel, hm, htop]
      | bool b => simp [parseUserMessage, parseUserTopLevel, hm, htop]
      | null => simp [parseUserMessage, parseUserTopLevel, hm, htop]
      | arr a => simp [parseUserMessage, parseUserTopLevel, hm, htop]
  · intro b rest s h
    rw [extractToolResultContent_cons, h]
  · intro b rest h
    rw [extractToolResultContent_cons, h]

/-- Witness for C5: each payload shape at a concrete object — nested string,
nested array with a tool-result hit, nested array falling back to the
placeholder, and top-level string. -/
theorem parseUserMessage_precedence_witness :
    parseUserMessage [("message", .obj [("content", .str "hi")])] = .ok (.user "hi") ∧
    parseUserMessage [("message", .obj [("content",
        .arr [.obj [("type", .str "tool_result"), ("content", .str "out")]])])] =
      .ok (.user "out") ∧
    extractToolResultContent [.obj [("type", .str "tool_result"), ("content", .str "out")]] =
      "out" ∧
    extractToolResultContent [.obj [("type", .str "tool_result")]] = "[Tool result message]" ∧
    parseUserMessage [("content", .str "top")] = .ok (.user "top") := by
  refine ⟨?_, ?_, ?_, ?_, ?_⟩
  · exact parseUserMessage_precedence.1 _ [("content", .str "hi")] "hi" rfl rfl
  · exact parseUserMessage_precedence.2.1 _
      [("content", .arr [.obj [("type", .str "tool_result"), ("content", .str "out")]])]
      [.obj [("type", .str "tool_result"), ("content", .str "out")]] rfl rfl
  · exact parseUserMessage_precedence.2.2.2.2.1
      (.obj [("type", .str "tool_result"), ("content", .str "out")]) [] "out" rfl
  · exact parseUserMessage_precedence.2.2.2.2.2.1 (.obj [("type", .str "tool_result")]) [] rfl
  · exact parseUserMessage_precedence.2.2.1 [("content", .str "top")] "top" rfl rfl

/-! ## C6: the Assistant message parser -/

/-- Modelled from the spec (§4.1, Assistant messages): whether the nested
`message.content` array shape applies. -/
def assistantNestedApplies (data : GoMap) : Bool :=
  match goGet data "message" with
  | some (.obj message) =>
    match goGet message "content" with
    | some (.arr _) => true
    | _ => false
  | _ => false

theorem parseBlocks_not_obj (data : GoMap) (v : GoVal) (rest : List GoVal)
    (hv : ∀ bm, v ≠ .obj bm) :
    parseBlocks data (v :: rest) = .error ⟨"Invalid content block format", .obj data⟩ := by
  cases v <;> first
    | exact absurd rfl (hv _)
    | simp [parseBlocks]

theorem parseBlocks_ok_forall2 (data : GoMap) :
    ∀ vs bs, parseBlocks data vs = .ok bs →
      List.Forall₂ (fun v b => ∃ bm, v = .obj bm ∧ parseContentBlock bm = .ok b) vs bs := by
  intro vs
  induction vs with
  | nil =>
    intro bs h
    simp only [parseBlocks] at h
    cases h
    exact List.Forall₂.nil
  | cons v rest ih =>
    intro bs h
    by_cases hobj : ∃ bm, v = .obj bm
    · obtain ⟨bm, rfl⟩ := hobj
      rcases hpb : parseContentBlock bm with e | b
      · simp [parseBlocks, hpb] at h
      · rcases hrest : parseBlocks data rest with e | bs'
        · simp [parseBlocks, hpb, hrest] at h
        · simp only [parseBlocks, hpb, hrest] at h
          cases h
          exact List.Forall₂.cons ⟨bm, rfl, hpb⟩ (ih bs' hrest)
    · rw [parseBlocks_not_obj data v rest (fun bm hv => hobj ⟨bm, hv⟩)] at h
      cases h

/-- The spec's worked Assistant example. -/
def exampleAssistantData : GoMap :=
  [("type", .str "assistant"),
   ("message", .obj [("content", .arr [.obj [("type", .str "text"), ("text", .str "hi")]])])]

/-- C6.  `parseAssistantMessage` takes its content array from
`message.content` first and from top-level `content` otherwise, failing when
neither is an array; each element must be an object dispatched on its block
`type` (`text` / `tool_use` / `tool_result`), with a parse error for a
non-object element, an unknown block type, or a missing required sub-field;
the parsed Assistant message carries the blocks in element order; and the
spec's worked example parses to an Assistant message with exactly one Text
block `hi`. -/
theorem parseAssistantMessage_contract :
    (∀ data message content, goGet data "message" = some (.obj message) →
      goGet message "content" = some (.arr content) →
      assistantContentData data = some content) ∧
    (∀ data content, assistantNestedApplies data = false →
      goGet data "content" = some (.arr content) →
      assistantContentData data = some content) ∧
    (∀ data, assistantContentData data = none →
      parseAssistantMessage data =
        .error ⟨"Missing required field 'content' in assistant message", .obj data⟩) ∧
    (∀ data content blocks, assistantContentData data = some content →
      parseBlocks data content = .ok blocks →
      parseAssistantMessage data = .ok (.assistant blocks)) ∧
    (∀ data content e, assistantContentData data = some content →
      parseBlocks data content = .error e → parseAssistantMessage data = .error e) ∧
    (∀ data v rest, (∀ bm, v ≠ .obj bm) →
      parseBlocks data (v :: rest) = .error ⟨"Invalid content block format", .obj data⟩) ∧
    (∀ bm t, goGet bm "type" = some (.str t) →
      t ≠ "text" → t ≠ "tool_use" → t ≠ "tool_result" →
      parseContentBlock bm = .error ⟨"Unknown content block type: " ++ t, .obj bm⟩) ∧
    (∀ bm, goGet bm "type" = some (.str "text") →
      (∀ s, goGet bm "text" ≠ some (.str s)) →
      parseContentBlock bm = .error ⟨"Text block missing 'text' field", .obj bm⟩) ∧
    (∀ bm, goGet bm "type" = some (.str "tool_use") →
      (∀ s, goGet bm "id" ≠ some (.str s)) →
      parseContentBlock bm = .error ⟨"Tool use block missing 'id' field", .obj bm⟩) ∧
    (∀ bm, goGet bm "type" = some (.str "tool_result") →
      (∀ s, goGet bm "tool_use_id" ≠ some (.str s)) →
      parseContentBlock bm =
        .error ⟨"Tool result block missing 'tool_use_id' field", .obj bm⟩) ∧
    (∀ data vs bs, parseBlocks data vs = .ok bs →
      List.Forall₂ (fun v b => ∃ bm, v = .obj bm ∧ parseContentBlock bm = .ok b) vs bs) ∧
    ParseMessage (some exampleAssistantData) = .ok (.assistant [.text "hi"]) := by
  refine ⟨?_, ?_, ?_, ?_, ?_, parseBlocks_not_obj, ?_, ?_, ?_, ?_, parseBlocks_ok_forall2, rfl⟩
  · intro data message content h1 h2
    simp [assistantContentData, h1, h2]
  · intro data content hnested htop
    rcases hm : goGet data "message" with _ | v
    · simp [assistantContentData, hm, htop]
    · cases v with
      | obj message =>
        rcases hc : goGet message "content" with _ | w
        · simp [assistantContentData, hm, hc, htop]
        · cases w with
          | arr a => simp [assistantNestedApplies, hm, hc] at hnested
          | str s => simp [assistantContentData, hm, hc, htop]
          | int n => simp [assistantContentData, hm, hc, htop]
          | int64 n => simp [assistantContentData, hm, hc, htop]
          | float q => simp [assistantContentData, hm, hc, htop]
          | bool b => simp [assistantContentData, hm, hc, htop]
          | null => simp [assistantContentData, hm, hc, htop]
          | obj m => simp [assistantContentData, hm, hc, htop]
      | str s => simp [assistantContentData, hm, htop]
      | int n => simp [assistantContentData, hm, htop]
      | int64 n => simp [assistantContentData, hm, htop]
      | float q => simp [assistantContentData, hm, htop]
      | bool b => simp [assistantContentData, hm, htop]
      | null => simp [assistantContentData, hm, htop]
      | arr a => simp [assistantContentData, hm, htop]
  · intro data h
    simp [parseAssistantMessage, h]
  · intro data content blocks h1 h2
    simp [parseAssistantMessage, h1, h2]
  · intro data content e h1 h2
    simp [parseAssistantMessage, h1, h2]
  · intro bm t ht h1 h2 h3
    simp [parseContentBlock, ht, h1, h2, h3]
  · intro bm ht hmiss
    rcases hx : goGet bm "text" with _ | w
    · simp [parseContentBlock, ht, hx]
    · cases w with
      | str s => exact absurd hx (hmiss s)
      | int n => simp [parseContentBlock, ht, hx]
      | int64 n => simp [parseContentBlock, ht, hx]
      | float q => simp [parseContentBlock, ht, hx]
      | bool b => simp [parseContentBlock, ht, hx]
      | null => simp [parseContentBlock, ht, hx]
      | arr a => simp [parseContentBlock, ht, hx]
      | obj m => simp [parseContentBlock, ht, hx]
  · intro bm ht hmiss
    rcases hx : goGet bm "id" with _ | w
    · simp [parseContentBlock, ht, hx]
    · cases w with
      | str s => exact absurd hx (hmiss s)
      | int n => simp [parseContentBlock, ht, hx]
      | int64 n => simp [parseContentBlock, ht, hx]
      | float q => simp [parseContentBlock, ht, hx]
      | bool b => simp [parseContentBlock, ht, hx]
      | null => simp [parseContentBlock, ht, hx]
      | arr a => simp [parseContentBlock, ht, hx]
      | obj m => simp [parseContentBlock, ht, hx]
  · intro bm ht hmiss
    rcases hx : goGet bm "tool_use_id" with _ | w
    · simp [parseContentBlock, ht, hx]
    · cases w with
      | str s => exact absurd hx (hmiss s)
      | int n => simp [parseContentBlock, ht, hx]
      | int64 n => simp [parseContentBlock, ht, hx]
      | float q => simp [parseContentBlock, ht, hx]
      | bool b => simp [parseContentBlock, ht, hx]
      | null => simp [parseContentBlock, ht, hx]
      | arr a => simp [parseContentBlock, ht, hx]
      | obj m => simp [parseContentBlock, ht, hx]

/-- Witness for C6 at concrete inputs: nested and top-level content arrays,
an unknown block type, a missing `text` sub-field, a non-object element, and
the spec's worked example. -/
theorem parseAssistantMessage_contract_witness :
    assistantContentData exampleAssistantData =
      some [.obj [("type", .str "text"), ("text", .str "hi")]] ∧
    parseAssistantMessage [("content", .arr [])] = .ok (.assistant []) ∧
    parseContentBlock [("type", .str "thinking")] =
      .error ⟨"Unknown content block type: thinking", .obj [("type", .str "thinking")]⟩ ∧
    parseContentBlock [("type", .str "text")] =
      .error ⟨"Text block missing 'text' field", .obj [("type", .str "text")]⟩ ∧
    parseBlocks [("content", .arr [.str "x"])] [.str "x"] =
      .error ⟨"Invalid content block format", .obj [("content", .arr [.str "x"])]⟩ := by
  refine ⟨?_, ?_, ?_, ?_, ?_⟩
  · exact parseAssistantMessage_contract.1 exampleAssistantData
      [("content", .arr [.obj [("type", .str "text"), ("text", .str "hi")]])]
      [.obj [("type", .str "text"), ("text", .str "hi")]] rfl rfl
  · exact parseAssistantMessage_contract.2.2.2.1 [("content", .arr [])] [] [] rfl rfl
  · exact parseAssistantMessage_contract.2.2.2.2.2.2.1 [("type", .str "thinking")]
      "thinking" rfl (by decide) (by decide) (by decide)
  · exact parseAssistantMessage_contract.2.2.2.2.2.2.2.1 [("type", .str "text")] rfl
      (fun s => by simp [goGet])
  · exact parseAssistantMessage_contract.2.2.2.2.2.1 [("content", .arr [.str "x"])]
      (.str "x") [] (fun bm => by simp)

end ClaudeSDK
